import Mathlib

/-!
Shallow embedding of `src/grid.py` (stellar-atmosphere grid indexing).

Python floats appear only in comparisons and equality tests (no float
arithmetic is performed on them), so they are modelled as rationals.
Python exceptions are modelled with `Except`: the generic
`Exception('Empty grid')` as `GridError.emptyGrid` and Python
`IndexError` (raised both by the explicit range check in `locate` and
by out-of-range sequence indexing) as `GridError.indexError`.
-/

/-- One precomputed model; mirrors class `Node` in `src/grid.py`.
The loader (h5py file read) is an external collaborator: `Teff` and
`logg` are the two grid parameters read from the file, `data` stands
for the opaque payload array, `filename` for the source identifier. -/
structure Node where
  filename : String
  Teff : ℚ
  logg : ℚ
  data : ℕ
deriving DecidableEq, Repr

/-- Python exceptions raised by the grid code. -/
inductive GridError where
  | emptyGrid
  | indexError
deriving DecidableEq, Repr

/-- Python sequence indexing `l[i]`: a negative index counts from the
end; an index out of range (after that adjustment) is an IndexError,
modelled as `none`. -/
def pyGet (l : List ℚ) (i : ℤ) : Option ℚ :=
  let j : ℤ := if i < 0 then (l.length : ℤ) + i else i
  if 0 ≤ j then l.get? j.toNat else none

/-- `np.unique`: the ascending sort of the distinct values of a list. -/
def np_unique (l : List ℚ) : List ℚ :=
  l.dedup.insertionSort (· ≤ ·)

/-- One iteration of the node-placement loop of `Grid.__init__`
(`src/grid.py:56-63`): the node is written at
`(np.where(node.Teff == Teff_axis)[0][0],
np.where(node.logg == logg_axis)[0][0])`, i.e. at the first index of
its value in each axis, overwriting whatever the cell held. -/
def placeStep (Teff_axis logg_axis : List ℚ) (f : ℕ → ℕ → Option Node) (node : Node) :
    ℕ → ℕ → Option Node :=
  fun i j =>
    if i = Teff_axis.indexOf node.Teff ∧ j = logg_axis.indexOf node.logg then
      some node
    else
      f i j

/-- The full placement loop, over the nodes in input order.  The
sparse object array is modelled as a function to `Option Node`,
empty cells being `none`. -/
def placeNodes (Teff_axis logg_axis : List ℚ) (ns : List Node) : ℕ → ℕ → Option Node :=
  ns.foldl (placeStep Teff_axis logg_axis) (fun _ _ => none)

/-- The body of `Grid.find_neighbors` for one `(h, k)` offset: if the
offset cell is within bounds and occupied, entry `[h+1, k+1]` of the
stencil is set to `True`; otherwise the stencil is left unchanged. -/
def stencilWrite (nT nG : ℕ) (cells : ℕ → ℕ → Option Node) (ij : ℤ × ℤ)
    (s : Fin 3 → Fin 3 → Bool) (hk : ℤ × ℤ) : Fin 3 → Fin 3 → Bool :=
  fun a b =>
    if (0 ≤ ij.1 + hk.1 ∧ ij.1 + hk.1 < (nT : ℤ)) ∧
        (0 ≤ ij.2 + hk.2 ∧ ij.2 + hk.2 < (nG : ℤ)) then
      if (cells (ij.1 + hk.1).toNat (ij.2 + hk.2).toNat).isSome then
        if (a : ℤ) = hk.1 + 1 ∧ (b : ℤ) = hk.2 + 1 then true else s a b
      else s a b
    else s a b

/-- The offsets visited by the two nested loops of `find_neighbors`
(`for k in range(-1,2): for h in range(-1,2)`), in loop order as
`(h, k)` pairs. -/
def stencilOffsets : List (ℤ × ℤ) :=
  [(-1, -1), (0, -1), (1, -1), (-1, 0), (0, 0), (1, 0), (-1, 1), (0, 1), (1, 1)]

/-- `Grid.find_neighbors` (`src/grid.py:177-205`): builds a 3×3
boolean stencil, all `False` initially, setting entry `[h+1, k+1]`
when the `(h, k)`-offset cell is in bounds and holds a Node.  Taken
out of the `Grid` structure so construction can use it. -/
def find_neighbors_core (nT nG : ℕ) (cells : ℕ → ℕ → Option Node) (ij : ℤ × ℤ) :
    Fin 3 → Fin 3 → Bool :=
  stencilOffsets.foldl (stencilWrite nT nG cells ij) (fun _ _ => false)

/-- The grid state built by `Grid.__init__`. -/
structure Grid where
  Teff_axis : List ℚ
  logg_axis : List ℚ
  nodes : ℕ → ℕ → Option Node
  neighbors : ℕ → ℕ → Fin 3 → Fin 3 → Bool
  debug : Bool

def Grid.n_Teff (g : Grid) : ℕ := g.Teff_axis.length

def Grid.n_logg (g : Grid) : ℕ := g.logg_axis.length

/-- The construction body of `Grid.__init__` after the emptiness
check: extract the unique sorted axes, place every node, and cache
one stencil per `(i, j)` of the axis cross product.  The stencil
cache is modelled as a function; the loop at `src/grid.py:69-75`
fills exactly the in-range entries with `find_neighbors`. -/
def buildGrid (ns : List Node) : Grid :=
  let Teff_axis := np_unique (ns.map Node.Teff)
  let logg_axis := np_unique (ns.map Node.logg)
  let cells := placeNodes Teff_axis logg_axis ns
  { Teff_axis := Teff_axis
    logg_axis := logg_axis
    nodes := cells
    neighbors := fun i j =>
      find_neighbors_core Teff_axis.length logg_axis.length cells ((i : ℤ), (j : ℤ))
    debug := false }

/-- `Grid.__init__` (`src/grid.py:30-79`): raises on an empty input
collection, otherwise builds the grid state.  The per-file Node
loading is the external loader; the construction consumes the loaded
Node list in input order. -/
def mkGrid (ns : List Node) : Except GridError Grid :=
  if ns.length = 0 then Except.error GridError.emptyGrid
  else Except.ok (buildGrid ns)

/-- `Grid.lookup` (`src/grid.py:82-102`): exact membership test of
both values in their axes; on success the cell at the first-match
indices is consulted, the `isinstance` test sending an empty cell to
`None` (here the cell already is an `Option`). -/
def Grid.lookup (g : Grid) (Teff logg : ℚ) : Option Node :=
  if Teff ∈ g.Teff_axis ∧ logg ∈ g.logg_axis then
    g.nodes (g.Teff_axis.indexOf Teff) (g.logg_axis.indexOf logg)
  else
    none

/-- The bisection loop of `locate_x` inside `Grid.locate`
(`src/grid.py:148-160`): Python `//` on the nonnegative sums that
occur here is floor division, i.e. `Int.ediv` by the positive 2. -/
def bisect (x : ℚ) (x_axis : List ℚ) (k0 k1 : ℤ) : Option ℤ :=
  if h : 1 < k1 - k0 then
    let k : ℤ := (k0 + k1) / 2
    match pyGet x_axis k with
    | none => none
    | some v => if v ≤ x then bisect x x_axis k k1 else bisect x x_axis k0 k
  else
    some k0
termination_by (k1 - k0).toNat
decreasing_by
  all_goals simp_wf
  all_goals omega

/-- The per-axis helper `locate_x` (`src/grid.py:131-162`): the first
and last axis values are special-cased, everything else goes through
bisection started at `k_0 = -1`, `k_1 = len(x_axis)`.  Python
evaluates `x == x_axis[0]` and `x == x_axis[-1]` by indexing, which
fails exactly when the axis is empty, hence the joint match. -/
def locate_x (x : ℚ) (x_axis : List ℚ) : Option ℤ :=
  match pyGet x_axis 0, pyGet x_axis (-1) with
  | some a0, some alast =>
    if x = a0 then some 0
    else if x = alast then some ((x_axis.length : ℤ) - 2)
    else bisect x x_axis (-1) (x_axis.length : ℤ)
  | _, _ => none

/-- `Grid.locate` (`src/grid.py:120-174`): range check on each
coordinate against the closed axis interval (IndexError outside),
then the two independent per-axis bisections; with `debug` set the
diagnostic f-string additionally indexes `axis[i]` and `axis[i+1]`
on both axes before the pair is returned. -/
def Grid.locate (g : Grid) (Teff logg : ℚ) : Except GridError (ℤ × ℤ) :=
  match pyGet g.Teff_axis 0, pyGet g.Teff_axis (-1) with
  | some t0, some tLast =>
    if Teff < t0 ∨ tLast < Teff then Except.error GridError.indexError
    else
      match pyGet g.logg_axis 0, pyGet g.logg_axis (-1) with
      | some l0, some lLast =>
        if logg < l0 ∨ lLast < logg then Except.error GridError.indexError
        else
          match locate_x Teff g.Teff_axis, locate_x logg g.logg_axis with
          | some i, some j =>
            if g.debug then
              match pyGet g.Teff_axis i, pyGet g.Teff_axis (i + 1),
                  pyGet g.logg_axis j, pyGet g.logg_axis (j + 1) with
              | some _, some _, some _, some _ => Except.ok (i, j)
              | _, _, _, _ => Except.error GridError.indexError
            else Except.ok (i, j)
          | _, _ => Except.error GridError.indexError
      | _, _ => Except.error GridError.indexError
  | _, _ => Except.error GridError.indexError

/-- `Grid.find_neighbors` as a method. -/
def Grid.find_neighbors (g : Grid) (ij : ℤ × ℤ) : Fin 3 → Fin 3 → Bool :=
  find_neighbors_core g.n_Teff g.n_logg g.nodes ij

/-- Numpy 2-D object-array indexing `self.nodes[i, j]` with integer
indices: negative indices count from the end of the dimension, and an
index out of range is an IndexError (`none`). -/
def Grid.npGetNode (g : Grid) (i j : ℤ) : Option (Option Node) :=
  let i' : ℤ := if i < 0 then (g.n_Teff : ℤ) + i else i
  let j' : ℤ := if j < 0 then (g.n_logg : ℤ) + j else j
  if 0 ≤ i' ∧ i' < (g.n_Teff : ℤ) ∧ 0 ≤ j' ∧ j' < (g.n_logg : ℤ) then
    some (g.nodes i'.toNat j'.toNat)
  else none

/-- Failure propagation of a Python expression that may raise
IndexError. -/
def toExcept (o : Option α) : Except GridError α :=
  match o with
  | none => Except.error GridError.indexError
  | some a => Except.ok a

/-- `Grid.find_derivs` (`src/grid.py:208-231`): reads the axis values
and the cell at `ij`, fetches the stencil, then for `j` in `[-1, 1]`
(outer) and `i` in `[-1, 1]` (inner) indexes `Teff_axis[ij[0]+i]` and
`logg_axis[ij[1]+j]` — Python indexing, so `-1` wraps to the end and
an index past the end raises IndexError — and reports the stencil
entry `nbrs[i+1, j+1]`.  The observable report (the four diagonal
occupancy flags, printed when `show` is set) is returned in loop
order. -/
def Grid.find_derivs (g : Grid) (ij : ℤ × ℤ) : Except GridError (List Bool) := do
  let _Teff ← toExcept (pyGet g.Teff_axis ij.1)
  let _logg ← toExcept (pyGet g.logg_axis ij.2)
  let _node ← toExcept (g.npGetNode ij.1 ij.2)
  let nbrs := g.find_neighbors ij
  let _ ← toExcept (pyGet g.Teff_axis (ij.1 + -1))
  let _ ← toExcept (pyGet g.logg_axis (ij.2 + -1))
  let r1 := nbrs 0 0
  let _ ← toExcept (pyGet g.Teff_axis (ij.1 + 1))
  let _ ← toExcept (pyGet g.logg_axis (ij.2 + -1))
  let r2 := nbrs 2 0
  let _ ← toExcept (pyGet g.Teff_axis (ij.1 + -1))
  let _ ← toExcept (pyGet g.logg_axis (ij.2 + 1))
  let r3 := nbrs 0 2
  let _ ← toExcept (pyGet g.Teff_axis (ij.1 + 1))
  let _ ← toExcept (pyGet g.logg_axis (ij.2 + 1))
  let r4 := nbrs 2 2
  return [r1, r2, r3, r4]

/-! ### Helper lemmas -/

lemma pyGet_of_nonneg {l : List ℚ} {i : ℤ} (h : 0 ≤ i) : pyGet l i = l.get? i.toNat := by
  have h1 : (if i < 0 then (l.length : ℤ) + i else i) = i := if_neg (by omega)
  simp only [pyGet, h1, if_pos h]

lemma pyGet_zero {l : List ℚ} : pyGet l 0 = l.get? 0 :=
  pyGet_of_nonneg le_rfl

lemma pyGet_neg {l : List ℚ} {i : ℤ} (hi : i < 0) (h : 0 ≤ (l.length : ℤ) + i) :
    pyGet l i = l.get? ((l.length : ℤ) + i).toNat := by
  have h1 : (if i < 0 then (l.length : ℤ) + i else i) = (l.length : ℤ) + i := if_pos hi
  simp only [pyGet, h1, if_pos h]

lemma pyGet_none {l : List ℚ} {i : ℤ} (h : (l.length : ℤ) ≤ i ∨ i + (l.length : ℤ) < 0) :
    pyGet l i = none := by
  simp only [pyGet]
  split_ifs with h1 h2 h3 <;>
    first
      | rfl
      | (rw [List.get?_eq_none]; omega)

lemma np_unique_perm (l : List ℚ) : List.Perm (np_unique l) l.dedup :=
  List.perm_insertionSort _ _

lemma np_unique_nodup (l : List ℚ) : (np_unique l).Nodup :=
  (np_unique_perm l).symm.nodup l.nodup_dedup

lemma np_unique_sorted (l : List ℚ) : (np_unique l).Sorted (· < ·) :=
  (List.sorted_insertionSort _ _).lt_of_le (np_unique_nodup l)

lemma np_unique_mem {a : ℚ} {l : List ℚ} : a ∈ np_unique l ↔ a ∈ l :=
  (np_unique_perm l).mem_iff.trans List.mem_dedup

lemma np_unique_ne_nil {l : List ℚ} (h : l ≠ []) : np_unique l ≠ [] := by
  obtain ⟨a, ha⟩ := List.exists_mem_of_ne_nil l h
  exact List.ne_nil_of_mem (np_unique_mem.mpr ha)

lemma sorted_get?_lt {l : List ℚ} (hs : l.Sorted (· < ·)) {m n : ℕ} {a b : ℚ}
    (hmn : m < n) (ha : l.get? m = some a) (hb : l.get? n = some b) : a < b := by
  rw [List.get?_eq_some] at ha hb
  obtain ⟨hm, rfl⟩ := ha
  obtain ⟨hn, rfl⟩ := hb
  exact hs.rel_get_of_lt (by exact hmn)

lemma sorted_get?_le {l : List ℚ} (hs : l.Sorted (· < ·)) {m n : ℕ} {a b : ℚ}
    (hmn : m ≤ n) (ha : l.get? m = some a) (hb : l.get? n = some b) : a ≤ b := by
  rcases Nat.lt_or_ge m n with h | h
  · exact le_of_lt (sorted_get?_lt hs h ha hb)
  · have : m = n := by omega
    subst this
    rw [ha] at hb
    exact le_of_eq (Option.some_injective _ hb)

/-! ### C8: empty input -/

/-- C8: constructing a Grid from an empty collection of Nodes raises
the empty-grid error (`Exception('Empty grid')`, the spec's
`EmptyInputError`); no grid state is produced. -/
theorem mkGrid_empty_raises : mkGrid ([] : List Node) = Except.error GridError.emptyGrid := rfl

/-! ### C1: duplicate (Teff, logg) pairs -/

/-- Counterexample to C1: two Nodes with the same (temperature,
gravity) pair; construction succeeds (no duplicate check exists in
`Grid.__init__`), refuting the claimed `DuplicateNodeError`. -/
theorem dup_construction_succeeds :
    (Node.mk "a" 1 1 0).Teff = (Node.mk "b" 1 1 1).Teff ∧
    (Node.mk "a" 1 1 0).logg = (Node.mk "b" 1 1 1).logg ∧
    Node.mk "a" 1 1 0 ≠ Node.mk "b" 1 1 1 ∧
    mkGrid [Node.mk "a" 1 1 0, Node.mk "b" 1 1 1] =
      Except.ok (buildGrid [Node.mk "a" 1 1 0, Node.mk "b" 1 1 1]) :=
  ⟨rfl, rfl, by decide, rfl⟩

/-- C1 (amended): construction performs no duplicate-pair check and
never fails with a duplicate-node error: it succeeds for every
non-empty input collection, whether or not two Nodes share the same
(temperature, gravity) pair (the later Node silently overwrites the
earlier one in the cell array). -/
theorem construct_ok_of_ne_nil (ns : List Node) (h : ns ≠ []) :
    mkGrid ns = Except.ok (buildGrid ns) := by
  simp only [mkGrid, List.length_eq_zero]
  rw [if_neg h]

/-- Witness for C1's amended theorem at the duplicate-pair input. -/
theorem construct_ok_of_ne_nil_witness :
    mkGrid [Node.mk "a" 1 1 0, Node.mk "b" 1 1 1] =
      Except.ok (buildGrid [Node.mk "a" 1 1 0, Node.mk "b" 1 1 1]) :=
  construct_ok_of_ne_nil _ (by decide)

lemma buildGrid_Teff_axis (ns : List Node) :
    (buildGrid ns).Teff_axis = np_unique (ns.map Node.Teff) := rfl

lemma buildGrid_logg_axis (ns : List Node) :
    (buildGrid ns).logg_axis = np_unique (ns.map Node.logg) := rfl

lemma buildGrid_nodes (ns : List Node) :
    (buildGrid ns).nodes =
      placeNodes (np_unique (ns.map Node.Teff)) (np_unique (ns.map Node.logg)) ns := rfl

lemma buildGrid_debug (ns : List Node) : (buildGrid ns).debug = false := rfl

/-! ### C4: exact lookup characterization -/

/-- C4: on every constructed Grid, `lookup` returns absent (`none`)
when either queried value is not exactly present in its axis, returns
absent when both values are present but the addressed cell is a hole,
and otherwise returns the Node stored at that cell.  `lookup` is a
pure function of the grid state, so it has no side effects. -/
theorem lookup_characterization (ns : List Node) (T L : ℚ) :
    ((T ∉ (buildGrid ns).Teff_axis ∨ L ∉ (buildGrid ns).logg_axis) →
      (buildGrid ns).lookup T L = none) ∧
    (T ∈ (buildGrid ns).Teff_axis → L ∈ (buildGrid ns).logg_axis →
      (buildGrid ns).nodes ((buildGrid ns).Teff_axis.indexOf T)
          ((buildGrid ns).logg_axis.indexOf L) = none →
      (buildGrid ns).lookup T L = none) ∧
    (∀ nd : Node, T ∈ (buildGrid ns).Teff_axis → L ∈ (buildGrid ns).logg_axis →
      (buildGrid ns).nodes ((buildGrid ns).Teff_axis.indexOf T)
          ((buildGrid ns).logg_axis.indexOf L) = some nd →
      (buildGrid ns).lookup T L = some nd) := by
  refine ⟨?_, ?_, ?_⟩
  · intro h
    simp only [Grid.lookup]
    rw [if_neg]
    tauto
  · intro hT hL hcell
    simp only [Grid.lookup]
    rw [if_pos ⟨hT, hL⟩]
    exact hcell
  · intro nd hT hL hcell
    simp only [Grid.lookup]
    rw [if_pos ⟨hT, hL⟩]
    exact hcell

/-- Witness for C4 at the hole of a concrete sparse grid: both 1 and
20 occur in the axes, but no Node sits at that cell. -/
theorem lookup_characterization_witness :
    (buildGrid [Node.mk "a" 1 10 0, Node.mk "b" 2 20 1]).lookup 1 20 = none :=
  (lookup_characterization [Node.mk "a" 1 10 0, Node.mk "b" 2 20 1] 1 20).2.1
    (by decide) (by decide) (by decide)

/-! ### C6: axis correctness -/

/-- C6: for every non-empty input collection, both axes are strictly
increasing (hence duplicate-free), their members are exactly the
temperature (resp. gravity) values occurring among the input Nodes,
and each axis is the unique such strictly-sorted list — i.e. the
ascending sort of the set of distinct input values. -/
theorem axis_correctness (ns : List Node) (hne : ns ≠ []) :
    List.Sorted (· < ·) (buildGrid ns).Teff_axis ∧
    List.Sorted (· < ·) (buildGrid ns).logg_axis ∧
    (∀ a : ℚ, a ∈ (buildGrid ns).Teff_axis ↔ a ∈ ns.map Node.Teff) ∧
    (∀ a : ℚ, a ∈ (buildGrid ns).logg_axis ↔ a ∈ ns.map Node.logg) ∧
    (∀ l : List ℚ, List.Sorted (· < ·) l → (∀ a, a ∈ l ↔ a ∈ ns.map Node.Teff) →
      l = (buildGrid ns).Teff_axis) ∧
    (∀ l : List ℚ, List.Sorted (· < ·) l → (∀ a, a ∈ l ↔ a ∈ ns.map Node.logg) →
      l = (buildGrid ns).logg_axis) := by
  have huniq : ∀ m : List ℚ, ∀ l : List ℚ, List.Sorted (· < ·) l →
      (∀ a, a ∈ l ↔ a ∈ m) → l = np_unique m := by
    intro m l hs hm
    have hperm : List.Perm l (np_unique m) := by
      refine List.perm_of_nodup_nodup_toFinset_eq hs.nodup (np_unique_nodup m) ?_
      ext a
      simp only [List.mem_toFinset, hm a, np_unique_mem]
    exact List.eq_of_perm_of_sorted hperm hs (np_unique_sorted m)
  refine ⟨np_unique_sorted _, np_unique_sorted _, ?_, ?_, ?_, ?_⟩
  · intro a
    exact np_unique_mem
  · intro a
    exact np_unique_mem
  · intro l hs hm
    exact huniq _ l hs hm
  · intro l hs hm
    exact huniq _ l hs hm

/-- Witness for C6 at a concrete input collection. -/
theorem axis_correctness_witness :
    List.Sorted (· < ·) (buildGrid [Node.mk "a" 2 10 0, Node.mk "b" 1 20 1]).Teff_axis :=
  (axis_correctness [Node.mk "a" 2 10 0, Node.mk "b" 1 20 1] (by decide)).1

/-! ### C5: occupancy round-trip -/

lemma placeNodes_foldl_eq (axT axG : List ℚ) (n : Node) :
    ∀ (l : List Node) (f : ℕ → ℕ → Option Node),
      (∀ m ∈ l, axT.indexOf m.Teff = axT.indexOf n.Teff →
        axG.indexOf m.logg = axG.indexOf n.logg → m = n) →
      (n ∈ l ∨ f (axT.indexOf n.Teff) (axG.indexOf n.logg) = some n) →
      List.foldl (placeStep axT axG) f l (axT.indexOf n.Teff) (axG.indexOf n.logg) = some n := by
  intro l
  induction l with
  | nil =>
    intro f _ hin
    rcases hin with hin | hin
    · exact absurd hin (List.not_mem_nil n)
    · exact hin
  | cons a t ih =>
    intro f hkey hin
    rw [List.foldl_cons]
    by_cases hsame : axT.indexOf a.Teff = axT.indexOf n.Teff ∧
        axG.indexOf a.logg = axG.indexOf n.logg
    · have han : a = n := hkey a (List.mem_cons_self a t) hsame.1 hsame.2
      refine ih (placeStep axT axG f a) (fun m hm => hkey m (List.mem_cons_of_mem a hm)) ?_
      right
      simp only [placeStep]
      rw [if_pos ⟨hsame.1.symm, hsame.2.symm⟩, han]
    · have hnt : n ∈ t ∨ f (axT.indexOf n.Teff) (axG.indexOf n.logg) = some n := by
        rcases hin with hin | hin
        · rcases List.mem_cons.mp hin with rfl | hin
          · exact absurd ⟨rfl, rfl⟩ hsame
          · exact Or.inl hin
        · exact Or.inr hin
      refine ih (placeStep axT axG f a) (fun m hm => hkey m (List.mem_cons_of_mem a hm)) ?_
      rcases hnt with hnt | hnt
      · exact Or.inl hnt
      · right
        simp only [placeStep]
        rw [if_neg, hnt]
        intro hc
        exact hsame ⟨hc.1.symm, hc.2.symm⟩

/-- C5: for a Grid built from Nodes with pairwise-distinct
(temperature, gravity) pairs, looking up any input Node's own
coordinates returns that Node. -/
theorem lookup_roundtrip (ns : List Node)
    (hnd : (ns.map fun n => (n.Teff, n.logg)).Nodup) (n : Node) (hn : n ∈ ns) :
    (buildGrid ns).lookup n.Teff n.logg = some n := by
  have hT : n.Teff ∈ np_unique (ns.map Node.Teff) :=
    np_unique_mem.mpr (List.mem_map_of_mem Node.Teff hn)
  have hG : n.logg ∈ np_unique (ns.map Node.logg) :=
    np_unique_mem.mpr (List.mem_map_of_mem Node.logg hn)
  have hkey : ∀ m ∈ ns,
      (np_unique (ns.map Node.Teff)).indexOf m.Teff =
        (np_unique (ns.map Node.Teff)).indexOf n.Teff →
      (np_unique (ns.map Node.logg)).indexOf m.logg =
        (np_unique (ns.map Node.logg)).indexOf n.logg → m = n := by
    intro m hm h1 h2
    have hmT : m.Teff ∈ np_unique (ns.map Node.Teff) :=
      np_unique_mem.mpr (List.mem_map_of_mem Node.Teff hm)
    have hmG : m.logg ∈ np_unique (ns.map Node.logg) :=
      np_unique_mem.mpr (List.mem_map_of_mem Node.logg hm)
    have hT1 : m.Teff = n.Teff := (List.indexOf_inj hmT hT).mp h1
    have hG1 : m.logg = n.logg := (List.indexOf_inj hmG hG).mp h2
    exact List.inj_on_of_nodup_map hnd hm hn (by rw [hT1, hG1])
  simp only [Grid.lookup, buildGrid_Teff_axis, buildGrid_logg_axis, buildGrid_nodes]
  rw [if_pos ⟨hT, hG⟩]
  exact placeNodes_foldl_eq _ _ n ns _ hkey (Or.inl hn)

/-- Witness for C5 at a concrete two-node grid. -/
theorem lookup_roundtrip_witness :
    (buildGrid [Node.mk "a" 1 10 0, Node.mk "b" 2 20 1]).lookup 2 20 =
      some (Node.mk "b" 2 20 1) :=
  lookup_roundtrip [Node.mk "a" 1 10 0, Node.mk "b" 2 20 1] (by decide)
    (Node.mk "b" 2 20 1) (by decide)

/-! ### C7 and C10: neighbor stencils -/

lemma stencilWrite_apply (nT nG : ℕ) (cells : ℕ → ℕ → Option Node) (ij : ℤ × ℤ)
    (s : Fin 3 → Fin 3 → Bool) (hk : ℤ × ℤ) (a b : Fin 3) :
    (stencilWrite nT nG cells ij s hk a b = true) ↔
      (s a b = true ∨ ((a : ℤ) = hk.1 + 1 ∧ (b : ℤ) = hk.2 + 1 ∧
        0 ≤ ij.1 + hk.1 ∧ ij.1 + hk.1 < (nT : ℤ) ∧
        0 ≤ ij.2 + hk.2 ∧ ij.2 + hk.2 < (nG : ℤ) ∧
        (cells (ij.1 + hk.1).toNat (ij.2 + hk.2).toNat).isSome = true)) := by
  simp only [stencilWrite]
  split_ifs with h1 h2 hm
  · constructor
    · intro _
      exact Or.inr ⟨hm.1, hm.2, h1.1.1, h1.1.2, h1.2.1, h1.2.2, h2⟩
    · intro _
      rfl
  · constructor
    · exact Or.inl
    · rintro (h | h)
      · exact h
      · exact absurd ⟨h.1, h.2.1⟩ hm
  · constructor
    · exact Or.inl
    · rintro (h | h)
      · exact h
      · exact absurd h.2.2.2.2.2.2 h2
  · constructor
    · exact Or.inl
    · rintro (h | h)
      · exact h
      · exact absurd ⟨⟨h.2.2.1, h.2.2.2.1⟩, h.2.2.2.2.1, h.2.2.2.2.2.1⟩ h1

lemma foldl_stencilWrite_entry (nT nG : ℕ) (cells : ℕ → ℕ → Option Node) (ij : ℤ × ℤ)
    (L : List (ℤ × ℤ)) :
    ∀ (s : Fin 3 → Fin 3 → Bool) (a b : Fin 3),
      (L.foldl (stencilWrite nT nG cells ij) s a b = true) ↔
        (s a b = true ∨ ∃ hk, hk ∈ L ∧ (a : ℤ) = hk.1 + 1 ∧ (b : ℤ) = hk.2 + 1 ∧
          0 ≤ ij.1 + hk.1 ∧ ij.1 + hk.1 < (nT : ℤ) ∧
          0 ≤ ij.2 + hk.2 ∧ ij.2 + hk.2 < (nG : ℤ) ∧
          (cells (ij.1 + hk.1).toNat (ij.2 + hk.2).toNat).isSome = true) := by
  induction L with
  | nil =>
    intro s a b
    simp
  | cons o L ih =>
    intro s a b
    rw [List.foldl_cons, ih, stencilWrite_apply]
    simp only [List.mem_cons]
    constructor
    · rintro ((h | h) | ⟨hk, hmem, hrest⟩)
      · exact Or.inl h
      · exact Or.inr ⟨o, Or.inl rfl, h⟩
      · exact Or.inr ⟨hk, Or.inr hmem, hrest⟩
    · rintro (h | ⟨hk, hmem | hmem, hrest⟩)
      · exact Or.inl (Or.inl h)
      · subst hmem
        exact Or.inl (Or.inr hrest)
      · exact Or.inr ⟨hk, hmem, hrest⟩

lemma find_neighbors_core_entry (nT nG : ℕ) (cells : ℕ → ℕ → Option Node) (i j : ℤ)
    (a b : Fin 3) :
    (find_neighbors_core nT nG cells (i, j) a b = true) ↔
      (0 ≤ i + ((a : ℤ) - 1) ∧ i + ((a : ℤ) - 1) < (nT : ℤ) ∧
       0 ≤ j + ((b : ℤ) - 1) ∧ j + ((b : ℤ) - 1) < (nG : ℤ) ∧
       (cells (i + ((a : ℤ) - 1)).toNat (j + ((b : ℤ) - 1)).toNat).isSome = true) := by
  simp only [find_neighbors_core]
  rw [foldl_stencilWrite_entry]
  constructor
  · rintro (h | ⟨hk, hmem, ha, hb, hrest⟩)
    · simp at h
    · have h1 : hk.1 = (a : ℤ) - 1 := by omega
      have h2 : hk.2 = (b : ℤ) - 1 := by omega
      rw [h1, h2] at hrest
      exact hrest
  · intro h
    right
    refine ⟨((a : ℤ) - 1, (b : ℤ) - 1), ?_, by ring, by ring,
      h.1, h.2.1, h.2.2.1, h.2.2.2.1, h.2.2.2.2⟩
    fin_cases a <;> fin_cases b <;> decide

/-- C7: for every in-range cell (i, j), the stencil cached at
construction is exactly `find_neighbors` of the built occupancy, and
its entry `[dh+1, dk+1]` (entries indexed by `a = dh+1`, `b = dk+1`
in `Fin 3`) is true precisely when the offset cell `(i+dh, j+dk)` is
within both axis bounds and occupied. -/
theorem stencil_characterization (ns : List Node) (i j : ℕ)
    (hi : i < (buildGrid ns).n_Teff) (hj : j < (buildGrid ns).n_logg) :
    (buildGrid ns).neighbors i j = (buildGrid ns).find_neighbors ((i : ℤ), (j : ℤ)) ∧
    (∀ a b : Fin 3,
      ((buildGrid ns).neighbors i j a b = true ↔
        0 ≤ (i : ℤ) + ((a : ℤ) - 1) ∧
        (i : ℤ) + ((a : ℤ) - 1) < ((buildGrid ns).n_Teff : ℤ) ∧
        0 ≤ (j : ℤ) + ((b : ℤ) - 1) ∧
        (j : ℤ) + ((b : ℤ) - 1) < ((buildGrid ns).n_logg : ℤ) ∧
        ((buildGrid ns).nodes ((i : ℤ) + ((a : ℤ) - 1)).toNat
          ((j : ℤ) + ((b : ℤ) - 1)).toNat).isSome = true)) := by
  constructor
  · rfl
  · intro a b
    exact find_neighbors_core_entry (buildGrid ns).n_Teff (buildGrid ns).n_logg
      (buildGrid ns).nodes (i : ℤ) (j : ℤ) a b

/-- Witness for C7: in a 2×2 two-node grid, the stencil stored at
cell (0, 0) reports its south-east diagonal (cell (1, 1), which is
occupied). -/
theorem stencil_characterization_witness :
    (buildGrid [Node.mk "a" 1 10 0, Node.mk "b" 2 20 1]).neighbors 0 0 2 2 = true :=
  ((stencil_characterization [Node.mk "a" 1 10 0, Node.mk "b" 2 20 1] 0 0
      (by decide) (by decide)).2 2 2).mpr (by decide)

/-- C10 (implicit): `find_neighbors` is total on all integer index
pairs — the bounds guard precedes every array access, so no query
raises — and every stencil entry whose offset position falls outside
the axis bounds is false; in particular a fully out-of-grid query
yields the all-false mask. -/
theorem find_neighbors_out_of_bounds_false (g : Grid) (i j : ℤ) :
    (∀ a b : Fin 3,
      (i + ((a : ℤ) - 1) < 0 ∨ (g.n_Teff : ℤ) ≤ i + ((a : ℤ) - 1) ∨
       j + ((b : ℤ) - 1) < 0 ∨ (g.n_logg : ℤ) ≤ j + ((b : ℤ) - 1)) →
      g.find_neighbors (i, j) a b = false) ∧
    ((i + 1 < 0 ∨ (g.n_Teff : ℤ) ≤ i - 1 ∨ j + 1 < 0 ∨ (g.n_logg : ℤ) ≤ j - 1) →
      ∀ a b : Fin 3, g.find_neighbors (i, j) a b = false) := by
  have key : ∀ a b : Fin 3,
      (i + ((a : ℤ) - 1) < 0 ∨ (g.n_Teff : ℤ) ≤ i + ((a : ℤ) - 1) ∨
       j + ((b : ℤ) - 1) < 0 ∨ (g.n_logg : ℤ) ≤ j + ((b : ℤ) - 1)) →
      g.find_neighbors (i, j) a b = false := by
    intro a b hout
    cases hfn : g.find_neighbors (i, j) a b with
    | false => rfl
    | true =>
      have hc := (find_neighbors_core_entry g.n_Teff g.n_logg g.nodes i j a b).mp hfn
      omega
  refine ⟨key, fun hfar a b => key a b ?_⟩
  have ha := a.isLt
  have hb := b.isLt
  omega

/-- Witness for C10 at a fully out-of-grid query on a one-node grid. -/
theorem find_neighbors_out_of_bounds_false_witness :
    (buildGrid [Node.mk "a" 1 1 0]).find_neighbors (5, 0) 0 0 = false :=
  (find_neighbors_out_of_bounds_false (buildGrid [Node.mk "a" 1 1 0]) 5 0).1 0 0
    (by decide)

/-! ### C2 and C3: bisection locate -/

lemma bisect_some (x : ℚ) (axis : List ℚ) :
    ∀ (m : ℕ) (k0 k1 : ℤ), (k1 - k0).toNat ≤ m →
      -1 ≤ k0 → k0 < k1 → k1 ≤ (axis.length : ℤ) →
      (k0 = -1 ∨ ∃ a, axis.get? k0.toNat = some a ∧ a ≤ x) →
      (k1 = (axis.length : ℤ) ∨ ∃ b, axis.get? k1.toNat = some b ∧ x < b) →
      ∃ r, bisect x axis k0 k1 = some r ∧ k0 ≤ r ∧ r < k1 ∧
        (r = -1 ∨ ∃ a, axis.get? r.toNat = some a ∧ a ≤ x) ∧
        (r + 1 = (axis.length : ℤ) ∨ ∃ b, axis.get? (r + 1).toNat = some b ∧ x < b) := by
  intro m
  induction m with
  | zero =>
    intro k0 k1 hm h0 h01 _ _ _
    omega
  | succ m ih =>
    intro k0 k1 hm h0 h01 h1len inv0 inv1
    rw [bisect.eq_def]
    by_cases hgt : 1 < k1 - k0
    · rw [dif_pos hgt]
      have hmid0 : (0 : ℤ) ≤ (k0 + k1) / 2 := by omega
      have hmidlt : ((k0 + k1) / 2).toNat < axis.length := by omega
      obtain ⟨v, hv⟩ : ∃ v, axis.get? ((k0 + k1) / 2).toNat = some v :=
        ⟨_, List.get?_eq_get hmidlt⟩
      simp only [pyGet_of_nonneg hmid0, hv]
      by_cases hvx : v ≤ x
      · rw [if_pos hvx]
        obtain ⟨r, hr, hr0, hr1, hrinv0, hrinv1⟩ :=
          ih ((k0 + k1) / 2) k1 (by omega) (by omega) (by omega) h1len
            (Or.inr ⟨v, hv, hvx⟩) inv1
        exact ⟨r, hr, by omega, hr1, hrinv0, hrinv1⟩
      · rw [if_neg hvx]
        obtain ⟨r, hr, hr0, hr1, hrinv0, hrinv1⟩ :=
          ih k0 ((k0 + k1) / 2) (by omega) h0 (by omega) (by omega)
            inv0 (Or.inr ⟨v, hv, by linarith [not_le.mp hvx]⟩)
        exact ⟨r, hr, hr0, by omega, hrinv0, hrinv1⟩
    · rw [dif_neg hgt]
      have hk1 : k1 = k0 + 1 := by omega
      refine ⟨k0, rfl, le_rfl, h01, inv0, ?_⟩
      rw [hk1] at inv1
      exact inv1

lemma pyGet_neg_one {l : List ℚ} (h : l ≠ []) : pyGet l (-1) = l.get? (l.length - 1) := by
  have hlen : 1 ≤ l.length := List.length_pos.mpr h
  rw [pyGet_neg (by omega) (by omega)]
  congr 1
  omega

lemma bracket_unique {axis : List ℚ} (hs : axis.Sorted (· < ·)) {x : ℚ} {r k : ℤ} {a b : ℚ}
    (hk0 : 0 ≤ k) (ha : axis.get? k.toNat = some a) (hb : axis.get? (k.toNat + 1) = some b)
    (hax : a < x) (hxb : x < b)
    (hr0 : -1 ≤ r) (hr1 : r + 1 ≤ (axis.length : ℤ))
    (hinv0 : r = -1 ∨ ∃ c, axis.get? r.toNat = some c ∧ c ≤ x)
    (hinv1 : r + 1 = (axis.length : ℤ) ∨ ∃ d, axis.get? (r + 1).toNat = some d ∧ x < d) :
    r = k := by
  have hblt : k.toNat + 1 < axis.length := (List.get?_eq_some.mp hb).1
  rcases lt_trichotomy r k with hlt | heq | hgt
  · exfalso
    have hne : r + 1 ≠ (axis.length : ℤ) := by omega
    rcases hinv1 with h | ⟨d, hd, hxd⟩
    · exact hne h
    · have hrk : (r + 1).toNat ≤ k.toNat := by omega
      have : d ≤ a := sorted_get?_le hs hrk hd ha
      linarith
  · exact heq
  · exfalso
    have hne : r ≠ -1 := by omega
    rcases hinv0 with h | ⟨c, hc, hcx⟩
    · exact hne h
    · have hrk : k.toNat + 1 ≤ r.toNat := by omega
      have : b ≤ c := sorted_get?_le hs hrk hb hc
      linarith

lemma locate_x_of_between {axis : List ℚ} (hs : axis.Sorted (· < ·)) {x : ℚ} {k : ℤ} {a b : ℚ}
    (hk0 : 0 ≤ k) (ha : axis.get? k.toNat = some a) (hb : axis.get? (k.toNat + 1) = some b)
    (hax : a < x) (hxb : x < b) :
    locate_x x axis = some k := by
  have hblt : k.toNat + 1 < axis.length := (List.get?_eq_some.mp hb).1
  have hne : axis ≠ [] := by
    intro hc
    rw [hc] at hblt
    simp at hblt
  have hlen2 : 2 ≤ axis.length := by omega
  obtain ⟨a0, ha0⟩ : ∃ a0, axis.get? 0 = some a0 :=
    ⟨_, List.get?_eq_get (by omega)⟩
  obtain ⟨alast, halast⟩ : ∃ al, axis.get? (axis.length - 1) = some al :=
    ⟨_, List.get?_eq_get (by omega)⟩
  have hp0 : pyGet axis 0 = some a0 := by rw [pyGet_zero]; exact ha0
  have hpl : pyGet axis (-1) = some alast := by rw [pyGet_neg_one hne]; exact halast
  have hxa0 : x ≠ a0 := by
    have h1 : a0 ≤ a := sorted_get?_le hs (by omega) ha0 ha
    intro hc
    have h2 : a0 < x := lt_of_le_of_lt h1 hax
    rw [hc] at h2
    exact lt_irrefl _ h2
  have hxal : x ≠ alast := by
    have h1 : b ≤ alast := sorted_get?_le hs (by omega) hb halast
    intro hc
    have h2 : x < alast := lt_of_lt_of_le hxb h1
    rw [hc] at h2
    exact lt_irrefl _ h2
  simp only [locate_x, hp0, hpl]
  rw [if_neg hxa0, if_neg hxal]
  obtain ⟨r, hr, hr0, hr1, hrinv0, hrinv1⟩ :=
    bisect_some x axis ((axis.length : ℤ) + 1).toNat (-1) (axis.length : ℤ)
      (by omega) (by omega) (by omega) (by omega) (Or.inl rfl) (Or.inl rfl)
  rw [hr]
  congr 1
  exact bracket_unique hs hk0 ha hb hax hxb (by omega) (by omega) hrinv0 hrinv1

lemma locate_x_some_of_inrange {axis : List ℚ} (hs : axis.Sorted (· < ·)) {x a0 alast : ℚ}
    (hne : axis ≠ [])
    (h0 : axis.get? 0 = some a0) (hlast : axis.get? (axis.length - 1) = some alast)
    (hax : a0 ≤ x) (hxb : x ≤ alast) :
    ∃ k : ℤ, locate_x x axis = some k := by
  have hlen : 1 ≤ axis.length := List.length_pos.mpr hne
  have hp0 : pyGet axis 0 = some a0 := by rw [pyGet_zero]; exact h0
  have hpl : pyGet axis (-1) = some alast := by rw [pyGet_neg_one hne]; exact hlast
  simp only [locate_x, hp0, hpl]
  by_cases hxa0 : x = a0
  · rw [if_pos hxa0]
    exact ⟨0, rfl⟩
  · rw [if_neg hxa0]
    by_cases hxal : x = alast
    · rw [if_pos hxal]
      exact ⟨_, rfl⟩
    · rw [if_neg hxal]
      have hlen2 : 2 ≤ axis.length := by
        rcases Nat.lt_or_ge axis.length 2 with hl | hl
        · exfalso
          have h1 : axis.length = 1 := by omega
          have heq : a0 = alast := by
            rw [h1] at hlast
            rw [show (1 : ℕ) - 1 = 0 from rfl, h0] at hlast
            exact Option.some_injective _ hlast
          apply hxa0
          rw [heq]
          apply le_antisymm hxb
          rw [heq] at hax
          exact hax
        · exact hl
      obtain ⟨r, hr, _, _, _, _⟩ :=
        bisect_some x axis ((axis.length : ℤ) + 1).toNat (-1) (axis.length : ℤ)
          (by omega) (by omega) (by omega) (by omega) (Or.inl rfl) (Or.inl rfl)
      exact ⟨r, hr⟩

lemma locate_x_first {axis : List ℚ} (hne : axis ≠ []) {a0 : ℚ}
    (h0 : axis.get? 0 = some a0) : locate_x a0 axis = some 0 := by
  have hlen : 1 ≤ axis.length := List.length_pos.mpr hne
  obtain ⟨alast, halast⟩ : ∃ al, axis.get? (axis.length - 1) = some al :=
    ⟨_, List.get?_eq_get (by omega)⟩
  have hp0 : pyGet axis 0 = some a0 := by rw [pyGet_zero]; exact h0
  have hpl : pyGet axis (-1) = some alast := by rw [pyGet_neg_one hne]; exact halast
  simp only [locate_x, hp0, hpl]
  simp

lemma locate_x_last {axis : List ℚ} (hs : axis.Sorted (· < ·)) (hlen2 : 2 ≤ axis.length)
    {alast : ℚ} (hlast : axis.get? (axis.length - 1) = some alast) :
    locate_x alast axis = some ((axis.length : ℤ) - 2) := by
  obtain ⟨a0, h0⟩ : ∃ a0, axis.get? 0 = some a0 :=
    ⟨_, List.get?_eq_get (by omega)⟩
  have hne : axis ≠ [] := by
    intro hc
    rw [hc] at hlen2
    simp at hlen2
  have hp0 : pyGet axis 0 = some a0 := by rw [pyGet_zero]; exact h0
  have hpl : pyGet axis (-1) = some alast := by rw [pyGet_neg_one hne]; exact hlast
  have hlt : a0 < alast := sorted_get?_lt hs (by omega) h0 hlast
  simp only [locate_x, hp0, hpl]
  rw [if_neg (by intro hc; rw [hc] at hlt; exact lt_irrefl _ hlt)]
  simp

/-- Statement-level predicate transcribing C2's three per-axis cases:
the query equals the first axis value (index 0), equals the last
(index n-2), or lies strictly between consecutive axis values with
index k. -/
def axisBracket (axis : List ℚ) (x : ℚ) (k : ℤ) : Prop :=
  (axis.get? 0 = some x ∧ k = 0) ∨
  (axis.get? (axis.length - 1) = some x ∧ k = (axis.length : ℤ) - 2) ∨
  (0 ≤ k ∧ ∃ a b, axis.get? k.toNat = some a ∧ axis.get? (k.toNat + 1) = some b ∧
    a < x ∧ x < b)

lemma locate_x_bracket {axis : List ℚ} (hs : axis.Sorted (· < ·)) (hlen2 : 2 ≤ axis.length)
    {x : ℚ} {k : ℤ} (hbr : axisBracket axis x k) : locate_x x axis = some k := by
  rcases hbr with ⟨h0, rfl⟩ | ⟨hlast, rfl⟩ | ⟨hk0, a, b, ha, hb, hax, hxb⟩
  · exact locate_x_first (by intro hc; rw [hc] at hlen2; simp at hlen2) h0
  · exact locate_x_last hs hlen2 hlast
  · exact locate_x_of_between hs hk0 ha hb hax hxb

lemma axisBracket_inrange {axis : List ℚ} (hs : axis.Sorted (· < ·))
    {x : ℚ} {k : ℤ} (hbr : axisBracket axis x k) {a0 alast : ℚ}
    (h0 : axis.get? 0 = some a0) (hlast : axis.get? (axis.length - 1) = some alast) :
    a0 ≤ x ∧ x ≤ alast := by
  have hlen : 1 ≤ axis.length := by
    have := (List.get?_eq_some.mp h0).1
    omega
  rcases hbr with ⟨h0x, _⟩ | ⟨hlastx, _⟩ | ⟨hk0, a, b, ha, hb, hax, hxb⟩
  · rw [h0] at h0x
    have hx : a0 = x := Option.some_injective _ h0x
    subst hx
    exact ⟨le_rfl, sorted_get?_le hs (by omega) h0 hlast⟩
  · rw [hlast] at hlastx
    have hx : alast = x := Option.some_injective _ hlastx
    subst hx
    exact ⟨sorted_get?_le hs (by omega) h0 hlast, le_rfl⟩
  · have hblt : k.toNat + 1 < axis.length := (List.get?_eq_some.mp hb).1
    constructor
    · exact le_of_lt (lt_of_le_of_lt (sorted_get?_le hs (by omega) h0 ha) hax)
    · exact le_of_lt (lt_of_lt_of_le hxb (sorted_get?_le hs (by omega) hb hlast))

/-- C2: for every strictly increasing axis with at least two values,
the per-axis locate resolution sends a query equal to the first axis
value to interval index 0, equal to the last to n-2, and strictly
between consecutive values to their lower index; on a constructed
grid with at least two values per axis, `locate` resolves the two
coordinates independently against their axes and returns the pair. -/
theorem locate_boundary_law (ns : List Node) (T L : ℚ) (i j : ℤ)
    (hnT : 2 ≤ (buildGrid ns).Teff_axis.length)
    (hnG : 2 ≤ (buildGrid ns).logg_axis.length)
    (hT : axisBracket (buildGrid ns).Teff_axis T i)
    (hL : axisBracket (buildGrid ns).logg_axis L j) :
    (∀ axis : List ℚ, axis.Sorted (· < ·) → 2 ≤ axis.length →
      ∀ (x : ℚ) (k : ℤ), axisBracket axis x k → locate_x x axis = some k) ∧
    locate_x T (buildGrid ns).Teff_axis = some i ∧
    locate_x L (buildGrid ns).logg_axis = some j ∧
    (buildGrid ns).locate T L = Except.ok (i, j) := by
  refine ⟨fun axis hs h2 x k hbr => locate_x_bracket hs h2 hbr, ?_⟩
  have hsT : List.Sorted (· < ·) (buildGrid ns).Teff_axis := np_unique_sorted _
  have hsG : List.Sorted (· < ·) (buildGrid ns).logg_axis := np_unique_sorted _
  have h1 : locate_x T (buildGrid ns).Teff_axis = some i := locate_x_bracket hsT hnT hT
  have h2 : locate_x L (buildGrid ns).logg_axis = some j := locate_x_bracket hsG hnG hL
  have hneT : (buildGrid ns).Teff_axis ≠ [] := by
    intro hc
    rw [hc] at hnT
    simp at hnT
  have hneG : (buildGrid ns).logg_axis ≠ [] := by
    intro hc
    rw [hc] at hnG
    simp at hnG
  obtain ⟨t0, ht0⟩ : ∃ v, (buildGrid ns).Teff_axis.get? 0 = some v :=
    ⟨_, List.get?_eq_get (by omega)⟩
  obtain ⟨tl, htl⟩ : ∃ v,
      (buildGrid ns).Teff_axis.get? ((buildGrid ns).Teff_axis.length - 1) = some v :=
    ⟨_, List.get?_eq_get (by omega)⟩
  obtain ⟨l0, hl0⟩ : ∃ v, (buildGrid ns).logg_axis.get? 0 = some v :=
    ⟨_, List.get?_eq_get (by omega)⟩
  obtain ⟨ll, hll⟩ : ∃ v,
      (buildGrid ns).logg_axis.get? ((buildGrid ns).logg_axis.length - 1) = some v :=
    ⟨_, List.get?_eq_get (by omega)⟩
  have hinT := axisBracket_inrange hsT hT ht0 htl
  have hinG := axisBracket_inrange hsG hL hl0 hll
  have hpT0 : pyGet (buildGrid ns).Teff_axis 0 = some t0 := by rw [pyGet_zero]; exact ht0
  have hpTl : pyGet (buildGrid ns).Teff_axis (-1) = some tl := by
    rw [pyGet_neg_one hneT]; exact htl
  have hpL0 : pyGet (buildGrid ns).logg_axis 0 = some l0 := by rw [pyGet_zero]; exact hl0
  have hpLl : pyGet (buildGrid ns).logg_axis (-1) = some ll := by
    rw [pyGet_neg_one hneG]; exact hll
  refine ⟨h1, h2, ?_⟩
  simp only [Grid.locate, hpT0, hpTl, hpL0, hpLl, h1, h2, buildGrid_debug]
  rw [if_neg (by push_neg; constructor <;> [exact hinT.1; exact hinT.2]),
    if_neg (by push_neg; constructor <;> [exact hinG.1; exact hinG.2])]
  simp

/-- Witness for C2 on a 3×2 grid: the query (25, 20) has temperature
strictly between axis values 20 and 30 (index 1) and gravity equal to
the last axis value 20 (index n-2 = 0); locate returns (1, 0). -/
theorem locate_boundary_law_witness :
    (buildGrid [Node.mk "a" 10 10 0, Node.mk "b" 20 20 1, Node.mk "c" 30 20 2]).locate
      25 20 = Except.ok (1, 0) :=
  (locate_boundary_law [Node.mk "a" 10 10 0, Node.mk "b" 20 20 1, Node.mk "c" 30 20 2]
    25 20 1 0 (by decide) (by decide)
    (Or.inr (Or.inr ⟨by decide, 20, 30, by decide, by decide, by decide, by decide⟩))
    (Or.inr (Or.inl ⟨by decide, by decide⟩))).2.2.2

/-- C3: on a constructed grid, `locate` fails (Python IndexError, the
spec's `OutOfRangeError`) exactly when the temperature falls strictly
outside the closed first-to-last temperature-axis interval or the
gravity falls strictly outside the closed gravity-axis interval; for
every query with both coordinates inside the closed ranges it returns
an index pair without error. -/
theorem locate_range_law (ns : List Node) (hne : ns ≠ []) (T L : ℚ) (t0 tl l0 ll : ℚ)
    (ht0 : (buildGrid ns).Teff_axis.get? 0 = some t0)
    (htl : (buildGrid ns).Teff_axis.get? ((buildGrid ns).Teff_axis.length - 1) = some tl)
    (hl0 : (buildGrid ns).logg_axis.get? 0 = some l0)
    (hll : (buildGrid ns).logg_axis.get? ((buildGrid ns).logg_axis.length - 1) = some ll) :
    (((buildGrid ns).locate T L = Except.error GridError.indexError) ↔
      (T < t0 ∨ tl < T ∨ L < l0 ∨ ll < L)) ∧
    ((t0 ≤ T ∧ T ≤ tl ∧ l0 ≤ L ∧ L ≤ ll) →
      ∃ i j : ℤ, (buildGrid ns).locate T L = Except.ok (i, j)) := by
  have hsT : List.Sorted (· < ·) (buildGrid ns).Teff_axis := np_unique_sorted _
  have hsG : List.Sorted (· < ·) (buildGrid ns).logg_axis := np_unique_sorted _
  have hneT : (buildGrid ns).Teff_axis ≠ [] := by
    rw [buildGrid_Teff_axis]
    refine np_unique_ne_nil ?_
    intro hc
    exact hne (List.map_eq_nil_iff.mp hc)
  have hneG : (buildGrid ns).logg_axis ≠ [] := by
    rw [buildGrid_logg_axis]
    refine np_unique_ne_nil ?_
    intro hc
    exact hne (List.map_eq_nil_iff.mp hc)
  have hpT0 : pyGet (buildGrid ns).Teff_axis 0 = some t0 := by rw [pyGet_zero]; exact ht0
  have hpTl : pyGet (buildGrid ns).Teff_axis (-1) = some tl := by
    rw [pyGet_neg_one hneT]; exact htl
  have hpL0 : pyGet (buildGrid ns).logg_axis 0 = some l0 := by rw [pyGet_zero]; exact hl0
  have hpLl : pyGet (buildGrid ns).logg_axis (-1) = some ll := by
    rw [pyGet_neg_one hneG]; exact hll
  by_cases hc1 : T < t0 ∨ tl < T
  · have hval : (buildGrid ns).locate T L = Except.error GridError.indexError := by
      simp only [Grid.locate, hpT0, hpTl, hpL0, hpLl]
      rw [if_pos hc1]
    rw [hval]
    constructor
    · constructor
      · intro _
        rcases hc1 with h | h
        · exact Or.inl h
        · exact Or.inr (Or.inl h)
      · intro _
        rfl
    · rintro ⟨hA, hB, _, _⟩
      exfalso
      rcases hc1 with h | h <;> linarith
  · by_cases hc2 : L < l0 ∨ ll < L
    · have hval : (buildGrid ns).locate T L = Except.error GridError.indexError := by
        simp only [Grid.locate, hpT0, hpTl, hpL0, hpLl]
        rw [if_neg hc1, if_pos hc2]
      rw [hval]
      constructor
      · constructor
        · intro _
          rcases hc2 with h | h
          · exact Or.inr (Or.inr (Or.inl h))
          · exact Or.inr (Or.inr (Or.inr h))
        · intro _
          rfl
      · rintro ⟨_, _, hC, hD⟩
        exfalso
        rcases hc2 with h | h <;> linarith
    · push_neg at hc1 hc2
      obtain ⟨i, hi⟩ := locate_x_some_of_inrange hsT hneT ht0 htl hc1.1 hc1.2
      obtain ⟨j, hj⟩ := locate_x_some_of_inrange hsG hneG hl0 hll hc2.1 hc2.2
      have hval : (buildGrid ns).locate T L = Except.ok (i, j) := by
        simp only [Grid.locate, hpT0, hpTl, hpL0, hpLl, hi, hj, buildGrid_debug]
        rw [if_neg (by push_neg; exact hc1), if_neg (by push_neg; exact hc2)]
        simp
      rw [hval]
      constructor
      · constructor
        · intro hcontra
          exact absurd hcontra (by intro hc; cases hc)
        · intro hcontra
          exfalso
          rcases hcontra with h | h | h | h <;> linarith [hc1.1, hc1.2, hc2.1, hc2.2]
      · intro _
        exact ⟨i, j, rfl⟩

/-- Witness for C3: the in-range query (15, 10) on a 2×2 grid returns
an index pair, and the locate call evaluates accordingly. -/
theorem locate_range_law_witness :
    ((buildGrid [Node.mk "a" 10 10 0, Node.mk "b" 20 20 1]).locate 15 10 =
        Except.error GridError.indexError ↔
      ((15 : ℚ) < 10 ∨ (20 : ℚ) < 15 ∨ (10 : ℚ) < 10 ∨ (20 : ℚ) < 10)) ∧
    ∃ i j : ℤ, (buildGrid [Node.mk "a" 10 10 0, Node.mk "b" 20 20 1]).locate 15 10 =
      Except.ok (i, j) := by
  have h := locate_range_law [Node.mk "a" 10 10 0, Node.mk "b" 20 20 1] (by decide)
    15 10 10 20 10 20 (by decide) (by decide) (by decide) (by decide)
  exact ⟨h.1, h.2 (by norm_num)⟩

/-! ### C9: derivative-support check -/

lemma pyGet_some_of_range {l : List ℚ} {t : ℤ} (h1 : -(l.length : ℤ) ≤ t)
    (h2 : t < (l.length : ℤ)) : ∃ v, pyGet l t = some v := by
  by_cases ht : 0 ≤ t
  · rw [pyGet_of_nonneg ht]
    exact ⟨_, List.get?_eq_get (by omega)⟩
  · rw [pyGet_neg (by omega) (by omega)]
    exact ⟨_, List.get?_eq_get (by omega)⟩

lemma npGetNode_some {g : Grid} {i j : ℤ} (h0i : 0 ≤ i) (h0j : 0 ≤ j)
    (hiN : i < (g.n_Teff : ℤ)) (hjN : j < (g.n_logg : ℤ)) :
    g.npGetNode i j = some (g.nodes i.toNat j.toNat) := by
  simp only [Grid.npGetNode, if_neg (show ¬i < 0 by omega), if_neg (show ¬j < 0 by omega)]
  rw [if_pos ⟨h0i, hiN, h0j, hjN⟩]

/-- Counterexample to C9: in the one-node grid the only located cell
is (0, 0), which sits on the upper boundary of both axes, and the
derivative-support check raises IndexError (`Teff_axis[1]` is out of
range) instead of reporting the diagonal occupancy without error. -/
theorem find_derivs_boundary_error :
    (buildGrid [Node.mk "a" 1 1 0]).find_derivs (0, 0) =
      Except.error GridError.indexError := rfl

/-- C9 (amended): for a located cell (i, j) strictly below the upper
boundary of both axes, `find_derivs` reports, for each of the four
diagonal offsets, the corresponding entry of the precomputed 3×3
stencil — which is true exactly when a Node exists at that offset —
without error (a lower-boundary offset wraps to a negative Python
index, which is valid, and its stencil entry is false).  For a cell
on the upper boundary of either axis, the indexing `axis[i+1]` (resp.
`axis[j+1]`) raises IndexError instead. -/
theorem find_derivs_report (ns : List Node) (i j : ℤ)
    (h0i : 0 ≤ i) (h0j : 0 ≤ j)
    (hiN : i < ((buildGrid ns).n_Teff : ℤ)) (hjN : j < ((buildGrid ns).n_logg : ℤ)) :
    ((i + 1 < ((buildGrid ns).n_Teff : ℤ) ∧ j + 1 < ((buildGrid ns).n_logg : ℤ)) →
      (buildGrid ns).find_derivs (i, j) = Except.ok
        [(buildGrid ns).find_neighbors (i, j) 0 0,
         (buildGrid ns).find_neighbors (i, j) 2 0,
         (buildGrid ns).find_neighbors (i, j) 0 2,
         (buildGrid ns).find_neighbors (i, j) 2 2]) ∧
    (∀ a b : Fin 3,
      ((buildGrid ns).find_neighbors (i, j) a b = true ↔
        0 ≤ i + ((a : ℤ) - 1) ∧ i + ((a : ℤ) - 1) < ((buildGrid ns).n_Teff : ℤ) ∧
        0 ≤ j + ((b : ℤ) - 1) ∧ j + ((b : ℤ) - 1) < ((buildGrid ns).n_logg : ℤ) ∧
        ((buildGrid ns).nodes (i + ((a : ℤ) - 1)).toNat
          (j + ((b : ℤ) - 1)).toNat).isSome = true)) ∧
    ((i + 1 = ((buildGrid ns).n_Teff : ℤ) ∨ j + 1 = ((buildGrid ns).n_logg : ℤ)) →
      (buildGrid ns).find_derivs (i, j) = Except.error GridError.indexError) := by
  have hlT : ((buildGrid ns).Teff_axis.length : ℤ) = ((buildGrid ns).n_Teff : ℤ) := rfl
  have hlG : ((buildGrid ns).logg_axis.length : ℤ) = ((buildGrid ns).n_logg : ℤ) := rfl
  obtain ⟨vT, hvT⟩ := pyGet_some_of_range (l := (buildGrid ns).Teff_axis) (t := i)
    (by omega) (by omega)
  obtain ⟨vG, hvG⟩ := pyGet_some_of_range (l := (buildGrid ns).logg_axis) (t := j)
    (by omega) (by omega)
  have hnode := npGetNode_some (g := buildGrid ns) h0i h0j hiN hjN
  obtain ⟨vTm, hvTm⟩ := pyGet_some_of_range (l := (buildGrid ns).Teff_axis) (t := i + -1)
    (by omega) (by omega)
  obtain ⟨vGm, hvGm⟩ := pyGet_some_of_range (l := (buildGrid ns).logg_axis) (t := j + -1)
    (by omega) (by omega)
  refine ⟨?_, ?_, ?_⟩
  · rintro ⟨hTi, hGj⟩
    obtain ⟨vTp, hvTp⟩ := pyGet_some_of_range (l := (buildGrid ns).Teff_axis) (t := i + 1)
      (by omega) (by omega)
    obtain ⟨vGp, hvGp⟩ := pyGet_some_of_range (l := (buildGrid ns).logg_axis) (t := j + 1)
      (by omega) (by omega)
    simp only [Grid.find_derivs, hvT, hvG, hnode, hvTm, hvGm, hvTp, hvGp, toExcept]
    rfl
  · intro a b
    exact find_neighbors_core_entry (buildGrid ns).n_Teff (buildGrid ns).n_logg
      (buildGrid ns).nodes i j a b
  · intro hbd
    by_cases hTi : i + 1 = ((buildGrid ns).n_Teff : ℤ)
    · have hvTp : pyGet (buildGrid ns).Teff_axis (i + 1) = none := by
        refine pyGet_none ?_
        omega
      simp only [Grid.find_derivs, hvT, hvG, hnode, hvTm, hvGm, hvTp, toExcept]
      rfl
    · have hGj : j + 1 = ((buildGrid ns).n_logg : ℤ) := by tauto
      obtain ⟨vTp, hvTp⟩ := pyGet_some_of_range (l := (buildGrid ns).Teff_axis) (t := i + 1)
        (by omega) (by omega)
      have hvGp : pyGet (buildGrid ns).logg_axis (j + 1) = none := by
        refine pyGet_none ?_
        omega
      simp only [Grid.find_derivs, hvT, hvG, hnode, hvTm, hvGm, hvTp, hvGp, toExcept]
      rfl

/-- Witness for C9's amended theorem: on a 2×2 grid the interior-in-
the-amended-sense cell (0, 0) yields its four diagonal stencil
entries without error. -/
theorem find_derivs_report_witness :
    (buildGrid [Node.mk "a" 1 10 0, Node.mk "b" 2 20 1]).find_derivs (0, 0) = Except.ok
      [(buildGrid [Node.mk "a" 1 10 0, Node.mk "b" 2 20 1]).find_neighbors (0, 0) 0 0,
       (buildGrid [Node.mk "a" 1 10 0, Node.mk "b" 2 20 1]).find_neighbors (0, 0) 2 0,
       (buildGrid [Node.mk "a" 1 10 0, Node.mk "b" 2 20 1]).find_neighbors (0, 0) 0 2,
       (buildGrid [Node.mk "a" 1 10 0, Node.mk "b" 2 20 1]).find_neighbors (0, 0) 2 2] :=
  (find_derivs_report [Node.mk "a" 1 10 0, Node.mk "b" 2 20 1] 0 0
    (by decide) (by decide) (by decide) (by decide)).1 ⟨by decide, by decide⟩
